import Mathlib

/-!
Shallow embedding of src/lib/util/value.c (FreeRADIUS value boxes):
the tagged-union value representation, comparison engine, CIDR-aware
operator comparison, cast matrix, network encode/decode and the
string-unescape routine, together with theorems settling the spec
claims about them.

Machine-integer conventions: the C `datum` union overlays all fixed
width integer/float fields at offset 0; we model that storage as a
single natural number `bits` holding the low 8 bytes of the union on a
little-endian LP64 host (the project's reference platform), so that a
read of an n-byte field yields `bits` reduced modulo 2^(8*n), and a
write of an n-byte field replaces only the low n bytes.  Signed fields
are the two's-complement reading of the same bytes.
-/

namespace FrValue

/-- Bytes-per-value bound used when a size_t subtraction wraps. -/
def SIZE_MAX64 : Nat := 2 ^ 64 - 1

/-- AF_INET constant (Linux value). -/
def AF_INET : Nat := 2

/-- AF_INET6 constant (Linux value). -/
def AF_INET6 : Nat := 10

/-- Two's-complement reading of the low `w` bits of `x` as an integer. -/
def toSigned (w : Nat) (x : Nat) : Int :=
  let m := x % 2 ^ w
  if m < 2 ^ (w - 1) then (m : Int) else (m : Int) - (2 ^ w : Int)

/-- Replace the low `w` bytes of `old` with the low `w` bytes of `v`
(a store through an n-byte union member on a little-endian host). -/
def setLowBytes (w : Nat) (old v : Nat) : Nat :=
  (old / 2 ^ (8 * w)) * 2 ^ (8 * w) + v % 2 ^ (8 * w)

/-- Byte swap of a 16-bit value: htons on a little-endian host. -/
def bswap16 (x : Nat) : Nat :=
  (x % 2 ^ 16) % 256 * 256 + (x % 2 ^ 16) / 256

/-- Byte swap of a 32-bit value: htonl on a little-endian host. -/
def bswap32 (x : Nat) : Nat :=
  bswap16 (x % 2 ^ 16) * 2 ^ 16 + bswap16 ((x % 2 ^ 32) / 2 ^ 16)

/-- Byte swap of a 64-bit value: htonll on a little-endian host. -/
def bswap64 (x : Nat) : Nat :=
  bswap32 (x % 2 ^ 32) * 2 ^ 32 + bswap32 ((x % 2 ^ 64) / 2 ^ 32)

/-- Little-endian byte image of the low `n` bytes of `x` (how an
n-byte integer field lies in memory on the modelled host). -/
def leBytes : Nat → Nat → List Nat
  | 0, _ => []
  | n + 1, x => x % 256 :: leBytes n (x / 256)

/-- Value of a little-endian byte list. -/
def leRead : List Nat → Nat
  | [] => 0
  | b :: bs => b % 256 + 256 * leRead bs

/-- Big-endian byte image of the low `n` bytes of `x`. -/
def beBytes (n x : Nat) : List Nat :=
  (leBytes n x).reverse

/-- memcmp over two byte lists: difference of the first differing pair
(as the C `int` result), 0 when the compared span is identical. -/
def memcmpBytes : List Nat → List Nat → Int
  | [], _ => 0
  | _, [] => 0
  | a :: as_, b :: bs => if a ≠ b then (a : Int) - (b : Int) else memcmpBytes as_ bs

/-- Overwrite the first bytes of `old` with `repl`, keeping `old`'s
tail (a memcpy into the front of a larger field). -/
def overwriteFront (old repl : List Nat) : List Nat :=
  repl ++ old.drop repl.length

/-- The closed enumeration of value-box kinds embedded here: every
concrete scalar kind of fr_type_t that value.c manipulates, plus the
invalid marker.  Structural/aggregate kinds are not embedded; the
prefix kinds are named ipv4net/ipv6net (for FR_TYPE_IPV4_PREFIX and
FR_TYPE_IPV6_PREFIX in the source). -/
inductive FrType where
  | invalid
  | string_
  | octets
  | ipv4addr
  | ipv4net
  | ipv6addr
  | ipv6net
  | ifid
  | ether
  | boolean
  | uint8
  | uint16
  | uint32
  | uint64
  | int8
  | int16
  | int32
  | int64
  | float32
  | float64
  | date
  | dateMilli
  | dateMicro
  | dateNano
  | size
  | timeval
  | abinary
  deriving DecidableEq, Repr

/-- The fr_ipaddr_t sub-record: address family, the 16-byte address
union (an IPv4 address occupies its first 4 bytes), prefix length and
scope id. -/
structure FrIpaddr where
  af : Nat
  addr : List Nat
  plen : Nat
  scopeId : Nat
  deriving DecidableEq, Repr

/-- The fr_value_box_t record.  `bits` is the little-endian union
storage for all fixed-width integer/float/date fields (see the file
comment); variable-length payloads live in `buf` with `length` the
datum.length field; `ip`, `ifid`, `ether`, `tvSec`/`tvUsec` and
`filter` model the non-integer union members used by the code. -/
structure FrValueBox where
  typ : FrType
  bits : Nat
  ip : FrIpaddr
  ifid : List Nat
  ether : List Nat
  buf : List Nat
  length : Nat
  tvSec : Nat
  tvUsec : Nat
  filter : List Nat
  tainted : Bool
  enumv : Option Nat
  deriving DecidableEq, Repr

/-- A zero-initialised fr_value_box_t (memset to 0): invalid kind,
null pointers, all-zero scalar storage. -/
def zeroBox : FrValueBox :=
  { typ := .invalid
    bits := 0
    ip := { af := 0, addr := List.replicate 16 0, plen := 0, scopeId := 0 }
    ifid := List.replicate 8 0
    ether := List.replicate 6 0
    buf := []
    length := 0
    tvSec := 0
    tvUsec := 0
    filter := List.replicate 32 0
    tainted := false
    enumv := none }

/-- fr_value_box_network_sizes: the (min, max) wire size per kind.
`~0` entries are SIZE_MAX64; kinds absent from the C initialiser list
default to (0, 0). -/
def fr_value_box_network_sizes (t : FrType) : Nat × Nat :=
  match t with
  | .invalid => (SIZE_MAX64, 0)
  | .string_ => (0, SIZE_MAX64)
  | .octets => (0, SIZE_MAX64)
  | .ipv4addr => (4, 4)
  | .ipv4net => (6, 6)
  | .ipv6addr => (16, 16)
  | .ipv6net => (18, 18)
  | .ifid => (8, 8)
  | .ether => (6, 6)
  | .boolean => (1, 1)
  | .uint8 => (1, 1)
  | .uint16 => (2, 2)
  | .uint32 => (4, 4)
  | .uint64 => (8, 8)
  | .int8 => (1, 1)
  | .int16 => (2, 2)
  | .int32 => (4, 4)
  | .int64 => (8, 8)
  | .float32 => (4, 4)
  | .float64 => (8, 8)
  | .date => (4, 4)
  | .dateMilli => (8, 8)
  | .dateMicro => (8, 8)
  | .dateNano => (8, 8)
  | .abinary => (32, SIZE_MAX64)
  | .size => (0, 0)
  | .timeval => (0, 0)

/-- fr_value_box_field_sizes: in-memory width of the datum field per
kind.  String/octets store a pointer (8 bytes on LP64).  The ip kinds
store a whole fr_ipaddr_t; its size is not visible in value.c
(the struct lives in a header outside src/), but it contains an int
family, the 16-byte address union, a prefix byte and a scope id, so it
is certainly larger than 16; we use 28, the natural packed+aligned
size.  Only equality with the small wire sizes matters to the code. -/
def fr_value_box_field_sizes (t : FrType) : Nat :=
  match t with
  | .invalid => 0
  | .string_ => 8
  | .octets => 8
  | .ipv4addr => 28
  | .ipv4net => 28
  | .ipv6addr => 28
  | .ipv6net => 28
  | .ifid => 8
  | .ether => 6
  | .boolean => 1
  | .uint8 => 1
  | .uint16 => 2
  | .uint32 => 4
  | .uint64 => 8
  | .int8 => 1
  | .int16 => 2
  | .int32 => 4
  | .int64 => 8
  | .float32 => 4
  | .float64 => 8
  | .date => 4
  | .dateMilli => 8
  | .dateMicro => 8
  | .dateNano => 8
  | .size => 8
  | .timeval => 16
  | .abinary => 32

/-- Width in bytes of the integer-like union member for the kinds
whose datum is held in `bits`. -/
def bitsWidth (t : FrType) : Nat :=
  match t with
  | .boolean | .uint8 | .int8 => 1
  | .uint16 | .int16 => 2
  | .uint32 | .int32 | .float32 | .date => 4
  | _ => 8

/-- fr_value_box_copy_meta: copy length (variable-size kinds only),
enum attachment, type and taint from src to dst. -/
def fr_value_box_copy_meta (dst src : FrValueBox) : FrValueBox :=
  let dst :=
    match src.typ with
    | .string_ | .octets => { dst with length := src.length }
    | _ => dst
  { dst with enumv := src.enumv, typ := src.typ, tainted := src.tainted }

/-- fr_value_box_copy: duplicate src into dst.  The default branch is
a memcpy of the active datum field at its offset (the rest of dst's
storage keeps its previous contents); strings/octets get a fresh
buffer holding src's first `length` bytes (a zero-length octets value
gets a null buffer, modelled as []).  Fails (none) on the invalid-kind
assertion; allocation failure is not modelled. -/
def fr_value_box_copy (dstPrev src : FrValueBox) : Option FrValueBox :=
  if src.typ = .invalid then none
  else
    let d :=
      match src.typ with
      | .string_ => { dstPrev with buf := src.buf.take src.length }
      | .octets =>
          { dstPrev with buf := if src.length ≠ 0 then src.buf.take src.length else [] }
      | .ipv4addr | .ipv4net | .ipv6addr | .ipv6net => { dstPrev with ip := src.ip }
      | .ifid => { dstPrev with ifid := src.ifid }
      | .ether => { dstPrev with ether := src.ether }
      | .timeval => { dstPrev with tvSec := src.tvSec, tvUsec := src.tvUsec }
      | .abinary => { dstPrev with filter := src.filter }
      | t => { dstPrev with bits := setLowBytes (bitsWidth t) dstPrev.bits src.bits }
    some (fr_value_box_copy_meta d src)

/-- fr_value_box_hton: byte-order flip of src's datum into dst.  The
integer/date cases write the swapped low bytes of src's field into
dst's union; the FLOAT32/FLOAT64 cases read dst's own (previous)
storage instead of src's, exactly as the source does; the
unswapped kinds perform a full fr_value_box_copy; string/octets and
invalid hit assertions (none).  The trailing copy_meta of the source
is applied unconditionally: when dst and src are the same object it
is an identity, so the pointer-inequality guard is immaterial. -/
def fr_value_box_hton (dstPrev src : FrValueBox) : Option FrValueBox :=
  if src.typ = .invalid then none
  else
    match src.typ with
    | .uint16 | .int16 =>
        some (fr_value_box_copy_meta
          { dstPrev with bits := setLowBytes 2 dstPrev.bits (bswap16 src.bits) } src)
    | .uint32 | .int32 =>
        some (fr_value_box_copy_meta
          { dstPrev with bits := setLowBytes 4 dstPrev.bits (bswap32 src.bits) } src)
    | .uint64 | .int64 =>
        some (fr_value_box_copy_meta
          { dstPrev with bits := setLowBytes 8 dstPrev.bits (bswap64 src.bits) } src)
    | .float32 =>
        some (fr_value_box_copy_meta
          { dstPrev with bits := setLowBytes 4 dstPrev.bits (bswap32 dstPrev.bits) } src)
    | .float64 =>
        some (fr_value_box_copy_meta
          { dstPrev with bits := setLowBytes 8 dstPrev.bits (bswap64 dstPrev.bits) } src)
    | .date =>
        some (fr_value_box_copy_meta
          { dstPrev with bits := setLowBytes 4 dstPrev.bits (bswap32 src.bits) } src)
    | .dateMilli | .dateMicro | .dateNano =>
        some (fr_value_box_copy_meta
          { dstPrev with bits := setLowBytes 8 dstPrev.bits (bswap64 src.bits) } src)
    | .boolean | .uint8 | .int8
    | .ipv4addr | .ipv4net | .ipv6addr | .ipv6net
    | .ifid | .ether | .size | .timeval | .abinary =>
        fr_value_box_copy dstPrev src
    | _ => none

/-- NaN test on an IEEE-754 bit pattern with `ew` exponent and `mw`
mantissa bits. -/
def floatIsNan (ew mw : Nat) (x : Nat) : Bool :=
  let mag := x % 2 ^ (ew + mw)
  decide (mag / 2 ^ mw = 2 ^ ew - 1) && decide (mag % 2 ^ mw ≠ 0)

/-- IEEE-754 `<` on bit patterns (false when either side is NaN,
-0 equal to +0). -/
def floatLt (ew mw : Nat) (a b : Nat) : Bool :=
  if floatIsNan ew mw a || floatIsNan ew mw b then false
  else
    let sa := a / 2 ^ (ew + mw) % 2
    let sb := b / 2 ^ (ew + mw) % 2
    let ma := a % 2 ^ (ew + mw)
    let mb := b % 2 ^ (ew + mw)
    if sa = 1 && sb = 0 then !(decide (ma = 0) && decide (mb = 0))
    else if sa = 0 && sb = 0 then decide (ma < mb)
    else if sa = 1 && sb = 1 then decide (mb < ma)
    else false

/-- The C `CHECK` comparison (strict less / strict greater on a field)
specialised to IEEE floats: -1, 0 or 1. -/
def floatCmp (ew mw : Nat) (a b : Nat) : Int :=
  if floatLt ew mw a b then -1 else if floatLt ew mw b a then 1 else 0

/-- fr_timeval_cmp, modelled from the spec: lexicographic comparison
of (tv_sec, tv_usec) (the helper lives outside src/). -/
def fr_timeval_cmp (aS aU bS bU : Nat) : Int :=
  if aS < bS then -1 else if bS < aS then 1
  else if aU < bU then -1 else if bU < aU then 1 else 0

/-- Memory image of a fr_ipaddr_t, modelled from the spec's field list
(af as a 4-byte little-endian int, the 16 address bytes, the prefix
byte, alignment padding as zero, the scope id): value.c compares two
ip records with a raw memcmp over this struct. -/
def ipStructBytes (ip : FrIpaddr) : List Nat :=
  leBytes 4 ip.af ++ ip.addr.take 16 ++ [ip.plen % 256] ++ [0, 0, 0] ++ leBytes 4 ip.scopeId

/-- The C `CHECK(_type)` macro on an unsigned natural field. -/
def natCmp (a b : Nat) : Int :=
  if a < b then -1 else if b < a then 1 else 0

/-- The C `CHECK(_type)` macro on a signed (two's complement) reading. -/
def intCmp (a b : Int) : Int :=
  if a < b then -1 else if b < a then 1 else 0

/-- fr_value_box_cmp: total ordering per kind.  Returns -2 on a type
mismatch, -1/0/1 otherwise; FR_TYPE_UINT32 compares through the
`int32` union field exactly as the source's `CHECK(int32)` does. -/
def fr_value_box_cmp (a b : FrValueBox) : Int :=
  if a.typ = .invalid then -1
  else if b.typ = .invalid then -1
  else if a.typ ≠ b.typ then -2
  else
    let compare : Int :=
      match a.typ with
      | .string_ | .octets =>
          let length := min a.length b.length
          let c := if length ≠ 0 then memcmpBytes (a.buf.take length) (b.buf.take length) else 0
          if c ≠ 0 then c
          else toSigned 32 ((a.length + 2 ^ 64 - b.length % 2 ^ 64) % 2 ^ 64)
      | .boolean => natCmp (a.bits % 2 ^ 8) (b.bits % 2 ^ 8)
      | .date => natCmp (a.bits % 2 ^ 32) (b.bits % 2 ^ 32)
      | .uint8 => natCmp (a.bits % 2 ^ 8) (b.bits % 2 ^ 8)
      | .uint16 => natCmp (a.bits % 2 ^ 16) (b.bits % 2 ^ 16)
      | .uint32 => intCmp (toSigned 32 a.bits) (toSigned 32 b.bits)
      | .uint64 => natCmp (a.bits % 2 ^ 64) (b.bits % 2 ^ 64)
      | .int8 => intCmp (toSigned 8 a.bits) (toSigned 8 b.bits)
      | .int16 => intCmp (toSigned 16 a.bits) (toSigned 16 b.bits)
      | .int32 => intCmp (toSigned 32 a.bits) (toSigned 32 b.bits)
      | .int64 => intCmp (toSigned 64 a.bits) (toSigned 64 b.bits)
      | .size => natCmp (a.bits % 2 ^ 64) (b.bits % 2 ^ 64)
      | .timeval => fr_timeval_cmp a.tvSec a.tvUsec b.tvSec b.tvUsec
      | .float32 => floatCmp 8 23 (a.bits % 2 ^ 32) (b.bits % 2 ^ 32)
      | .float64 => floatCmp 11 52 (a.bits % 2 ^ 64) (b.bits % 2 ^ 64)
      | .dateMilli => natCmp (a.bits % 2 ^ 64) (b.bits % 2 ^ 64)
      | .dateMicro => natCmp (a.bits % 2 ^ 64) (b.bits % 2 ^ 64)
      | .dateNano => natCmp (a.bits % 2 ^ 64) (b.bits % 2 ^ 64)
      | .ether => memcmpBytes (a.ether.take 6) (b.ether.take 6)
      | .ipv4addr | .ipv4net | .ipv6addr | .ipv6net =>
          memcmpBytes (ipStructBytes a.ip) (ipStructBytes b.ip)
      | .ifid => memcmpBytes (a.ifid.take 8) (b.ifid.take 8)
      | _ => 0
    match a.typ with
    | .abinary => -2
    | _ => if compare > 0 then 1 else if compare < 0 then -1 else 0

/-- The comparison operators fed to fr_value_box_cmp_op (the relevant
FR_TOKEN values). -/
inductive FrToken where
  | cmpEq
  | ne
  | lt
  | gt
  | le
  | ge
  deriving DecidableEq, Repr

/-- The loop of fr_value_box_cidr_cmp_op: walk whole bytes while at
least 8 common bits remain.  Returns an early boolean answer, or the
final (i, common) pair for the sub-byte mask test. -/
def cidrCmpLoop (a b : List Nat) : Nat → Nat → Nat → Sum Bool (Nat × Nat)
  | 0, i, common => Sum.inr (i, common)
  | n + 1, i, common =>
      if common = 0 then Sum.inl true
      else if common < 8 then Sum.inr (i, common)
      else if a.getD i 0 ≠ b.getD i 0 then Sum.inl false
      else cidrCmpLoop a b n (i + 1) (common - 8)

/-- fr_value_box_cidr_cmp_op: CIDR-aware operator evaluation over
`uint8s` address bytes with prefix lengths a_net and b_net. -/
def fr_value_box_cidr_cmp_op (op : FrToken) (uint8s : Nat)
    (a_net : Nat) (a : List Nat) (b_net : Nat) (b : List Nat) : Bool :=
  if a_net = b_net then
    let compare := memcmpBytes (a.take uint8s) (b.take uint8s)
    compare = 0 && (op = .cmpEq || op = .le || op = .ge)
  else
    match op with
    | .cmpEq => false
    | .ne => true
    | .lt | .le =>
        if a_net < b_net then false
        else cidrTail op uint8s a_net a b_net b
    | .ge | .gt =>
        if a_net > b_net then false
        else cidrTail op uint8s a_net a b_net b
where
  /-- The part after the operator-direction filter: compare the first
  `common` leading bits byte-by-byte, then mask the straggler bits. -/
  cidrTail (_op : FrToken) (uint8s a_net : Nat) (a : List Nat) (b_net : Nat) (b : List Nat) : Bool :=
    let common := if a_net < b_net then a_net else b_net
    match cidrCmpLoop a b uint8s 0 common with
    | Sum.inl r => r
    | Sum.inr (i, common) =>
        let mask0 := (1 <<< (8 - common)) % 2 ^ 32
        let mask := 2 ^ 32 - 1 - (mask0 - 1)
        Nat.land (a.getD i 0) mask = Nat.land (b.getD i 0) mask

/-- Operator evaluation over a three-way comparison result (the final
switch of fr_value_box_cmp_op); 1 is true, 0 is false. -/
def opApply (op : FrToken) (compare : Int) : Int :=
  match op with
  | .cmpEq => if compare = 0 then 1 else 0
  | .ne => if compare ≠ 0 then 1 else 0
  | .lt => if compare < 0 then 1 else 0
  | .gt => if compare > 0 then 1 else 0
  | .le => if compare ≤ 0 then 1 else 0
  | .ge => if compare ≥ 0 then 1 else 0

/-- The `goto cmp` path of fr_value_box_cmp_op: an ordinary value
comparison followed by the operator switch; a comparison error (< -1)
becomes -1. -/
def cmpThenOp (op : FrToken) (a b : FrValueBox) : Int :=
  let compare := fr_value_box_cmp a b
  if compare < -1 then -1 else opApply op compare

/-- bool to the C int result of fr_value_box_cmp_op. -/
def b2i (b : Bool) : Int := if b then 1 else 0

/-- fr_value_box_cmp_op: evaluate `a op b`, CIDR-aware whenever one
operand is an IP prefix of the same family.  1 true, 0 false, -1
error. -/
def fr_value_box_cmp_op (op : FrToken) (a b : FrValueBox) : Int :=
  if a.typ = .invalid then -1
  else if b.typ = .invalid then -1
  else
    match a.typ, b.typ with
    | .ipv4addr, .ipv4addr => cmpThenOp op a b
    | .ipv4addr, .ipv4net =>
        b2i (fr_value_box_cidr_cmp_op op 4 32 (a.ip.addr.take 4) b.ip.plen (b.ip.addr.take 4))
    | .ipv4addr, _ => -1
    | .ipv4net, .ipv4addr =>
        b2i (fr_value_box_cidr_cmp_op op 4 a.ip.plen (a.ip.addr.take 4) 32 (b.ip.addr.take 4))
    | .ipv4net, .ipv4net =>
        b2i (fr_value_box_cidr_cmp_op op 4 a.ip.plen (a.ip.addr.take 4) b.ip.plen (b.ip.addr.take 4))
    | .ipv4net, _ => -1
    | .ipv6addr, .ipv6addr => cmpThenOp op a b
    | .ipv6addr, .ipv6net =>
        b2i (fr_value_box_cidr_cmp_op op 16 128 (a.ip.addr.take 16) b.ip.plen (b.ip.addr.take 16))
    | .ipv6addr, _ => -1
    | .ipv6net, .ipv6addr =>
        b2i (fr_value_box_cidr_cmp_op op 16 a.ip.plen (a.ip.addr.take 16) 128 (b.ip.addr.take 16))
    | .ipv6net, .ipv6net =>
        b2i (fr_value_box_cidr_cmp_op op 16 a.ip.plen (a.ip.addr.take 16) b.ip.plen (b.ip.addr.take 16))
    | .ipv6net, _ => -1
    | _, _ => cmpThenOp op a b

/-- Bytes of a Lean string (ASCII). -/
def strBytes (s : String) : List Nat :=
  s.data.map Char.toNat

/-- The hextab array of value.c including its trailing NUL: memchr
over it scans all 17 bytes, so a NUL input character is found at
index 16. -/
def hextab : List Nat :=
  strBytes "0123456789abcdef" ++ [0]

/-- memchr over hextab: index of the first occurrence. -/
def memchrHex (c : Nat) : Option Nat :=
  (hextab.findIdx? (· = c))

/-- C tolower in the default locale, on a byte. -/
def tolowerB (c : Nat) : Nat :=
  if 65 ≤ c ∧ c ≤ 90 then c + 32 else c

/-- ASCII decimal digit test. -/
def isDigitB (c : Nat) : Bool :=
  decide (48 ≤ c) && decide (c ≤ 57)

/-- ASCII octal digit test. -/
def isOctB (c : Nat) : Bool :=
  decide (48 ≤ c) && decide (c ≤ 55)

/-- sscanf(p, "%3o", &x) on three digit characters: the octal value of
the maximal octal-digit prefix (the caller guarantees the first char
is an octal digit when this is used). -/
def scan3o (d0 d1 d2 : Nat) : Nat :=
  let v0 := d0 - 48
  if isOctB d1 then
    let v1 := v0 * 8 + (d1 - 48)
    if isOctB d2 then v1 * 8 + (d2 - 48) else v1
  else v0

/-- Single-quote (literal) unescape loop: only backslash-quote and
backslash-backslash collapse.  A lone trailing backslash is copied
through (the source would peek one byte past the given length there;
we treat that byte as non-matching). -/
def unescSq : List Nat → List Nat
  | [] => []
  | 92 :: 39 :: rest => 39 :: unescSq rest
  | 92 :: 92 :: rest => 92 :: unescSq rest
  | c :: rest => c :: unescSq rest

/-- Expanded-mode unescape loop of value_str_unescape, fuelled by the
remaining input length.  The hex test and the octal test are two
sequential ifs exactly as in the source (so a matched hex escape is
still followed by the octal test on the next three characters); an
invalid escape with fewer than three following characters copies the
backslash and the whole remainder verbatim and stops. -/
def unescStep (quote : Nat) : Nat → List Nat → List Nat
  | 0, _ => []
  | _ + 1, [] => []
  | fuel + 1, c :: rest =>
    if c = 92 then
      match rest with
      | [] => [c]
      | e :: rest1 =>
        if e = 114 then 13 :: unescStep quote fuel rest1
        else if e = 110 then 10 :: unescStep quote fuel rest1
        else if e = 116 then 9 :: unescStep quote fuel rest1
        else if e = 92 then 92 :: unescStep quote fuel rest1
        else if e = quote then quote % 256 :: unescStep quote fuel rest1
        else if rest.length < 3 then c :: rest
        else
          let hex1 := memchrHex (tolowerB (rest.getD 1 0))
          let hex2 := memchrHex (tolowerB (rest.getD 2 0))
          let hexHit := e = 120 ∧ hex1.isSome ∧ hex2.isSome
          let c1 := if hexHit then ((hex1.getD 0) * 16 + hex2.getD 0) % 256 else c
          let off1 := if hexHit then 3 else 0
          let d0 := rest.getD off1 0
          let d1 := rest.getD (off1 + 1) 0
          let d2 := rest.getD (off1 + 2) 0
          let octHit := isDigitB d0 ∧ isDigitB d1 ∧ isDigitB d2 ∧ isOctB d0
          let c2 := if octHit then scan3o d0 d1 d2 % 256 else c1
          let off2 := if octHit then off1 + 3 else off1
          c2 :: unescStep quote fuel (rest.drop off2)
    else c :: unescStep quote fuel rest

/-- value_str_unescape: unescape `inB` in the mode selected by the
quote byte (0 verbatim, single quote literal, anything else expanded),
returning the output bytes. -/
def value_str_unescape (inB : List Nat) (quote : Nat) : List Nat :=
  if quote = 0 then inB
  else if quote = 39 then unescSq inB
  else unescStep quote inB.length inB

/-- fr_value_box_network_length: stored length for variable-size
kinds, the (minimum) fixed wire size otherwise. -/
def fr_value_box_network_length (value : FrValueBox) : Nat :=
  match value.typ with
  | .string_ | .octets => value.length
  | t => (fr_value_box_network_sizes t).1

/-- Raw memory bytes of the datum field addressed by
`datum + fr_value_box_offsets[t]`, for the kinds the network codec
memcpy's from (integer-like fields are the little-endian image of
`bits`). -/
def fieldMemBytes (v : FrValueBox) (t : FrType) : List Nat :=
  match t with
  | .ipv4addr | .ipv4net | .ipv6addr | .ipv6net => ipStructBytes v.ip
  | .ifid => v.ifid.take 8
  | .ether => v.ether.take 6
  | .timeval => leBytes 8 v.tvSec ++ leBytes 8 v.tvUsec
  | .abinary => v.filter.take 32
  | t => leBytes (bitsWidth t) v.bits

/-- fr_value_box_to_network: encode `value` into a buffer of
`dst_len` bytes.  `tmpPrev` is the (uninitialised) stack temporary the
source declares for the byte-order flip — the FLOAT32/FLOAT64 bug in
fr_value_box_hton makes the encoded bytes depend on it.  Result:
(return value, bytes written, the value stored through the `need`
out-pointer — none when the source leaves it unset). -/
def fr_value_box_to_network (tmpPrev : FrValueBox) (dst_len : Nat)
    (value : FrValueBox) : Int × List Nat × Option Nat :=
  match value.typ with
  | .string_ | .octets =>
      let (need, len) :=
        if value.length > dst_len then (value.length, dst_len) else (0, value.length)
      ((len : Int), value.buf.take len, some need)
  | t =>
    let mn := (fr_value_box_network_sizes t).1
    let mx := (fr_value_box_network_sizes t).2
    if mn = 0 ∧ mx = 0 then (-1, [], none)
    else if mx > dst_len then (0, [], some mx)
    else
      match t with
      | .ipv4net =>
          ((mn : Int), value.ip.plen % 256 :: value.ip.addr.take 4, some 0)
      | .ipv6net =>
          ((mn : Int), value.ip.scopeId % 256 :: value.ip.plen % 256 :: value.ip.addr.take 16, some 0)
      | .boolean =>
          ((mn : Int), [if value.bits % 2 ^ 8 ≠ 0 then 1 else 0], some 0)
      | .ipv4addr | .ipv6addr | .ifid | .ether | .uint8 | .int8 =>
          if fr_value_box_field_sizes t ≠ mn then (-1, [], none)
          else ((mn : Int), (fieldMemBytes value t).take mn, some 0)
      | .uint16 | .uint32 | .uint64 | .int16 | .int32 | .int64
      | .date | .float32 | .float64 | .dateMilli | .dateMicro | .dateNano =>
          if fr_value_box_field_sizes t ≠ mn then (-1, [], none)
          else
            let tmp := (fr_value_box_hton tmpPrev value).getD tmpPrev
            ((mn : Int), (fieldMemBytes tmp t).take mn, some 0)
      | _ => (-1, [], none)

/-- Structured decode errors of fr_value_box_from_network, carrying
the kind and the expected/actual lengths named by the diagnostics. -/
inductive FrDecodeErr where
  | truncated (t : FrType) (expected got : Nat)
  | trailing (t : FrType) (expected got : Nat)
  deriving DecidableEq, Repr

/-- fr_value_box_from_network: decode `src` as kind `t` into the
caller's box (whose previous contents `dstPrev` matter: bytes the
decoder does not write keep their old values, and the in-place
byte-order flip dispatches on the box's previous type field, which
is only overwritten afterwards).  Returns the consumed length or a
structured length error, together with the resulting box (unchanged
on a length error). -/
def fr_value_box_from_network (dstPrev : FrValueBox) (src : List Nat)
    (t : FrType) (tainted : Bool) : Except FrDecodeErr Nat × FrValueBox :=
  let len := src.length
  let mn := (fr_value_box_network_sizes t).1
  let mx := (fr_value_box_network_sizes t).2
  if len < mn then (Except.error (.truncated t mn len), dstPrev)
  else if len > mx then (Except.error (.trailing t mx len), dstPrev)
  else
    match t with
    | .string_ =>
        (Except.ok len,
          { dstPrev with typ := .string_, tainted := tainted, buf := src, length := len, enumv := none })
    | .octets =>
        (Except.ok len,
          { dstPrev with typ := .octets, tainted := tainted, buf := src, length := len, enumv := none })
    | _ =>
      let d :=
        match t with
        | .ipv4addr =>
            { dstPrev with ip :=
              { af := AF_INET
                addr := overwriteFront dstPrev.ip.addr (src.take len)
                plen := 32
                scopeId := 0 } }
        | .ipv4net =>
            { dstPrev with ip :=
              { af := AF_INET
                addr := overwriteFront dstPrev.ip.addr ((src.drop 1).take (len - 1))
                plen := src.getD 0 0
                scopeId := 0 } }
        | .ipv6addr =>
            { dstPrev with ip :=
              { af := AF_INET6
                addr := overwriteFront dstPrev.ip.addr (src.take (len - 1))
                plen := 128
                scopeId := 0 } }
        | .ipv6net =>
            { dstPrev with ip :=
              { af := AF_INET6
                addr := overwriteFront dstPrev.ip.addr ((src.drop 2).take (len - 2))
                plen := src.getD 1 0
                scopeId := src.getD 0 0 } }
        | .boolean =>
            { dstPrev with bits :=
                setLowBytes 1 dstPrev.bits (if src.getD 0 0 > 0 then 1 else 0) }
        | .ifid => { dstPrev with ifid := overwriteFront dstPrev.ifid (src.take len) }
        | .ether => { dstPrev with ether := overwriteFront dstPrev.ether (src.take len) }
        | .uint8 | .int8 =>
            { dstPrev with bits := setLowBytes 1 dstPrev.bits (src.getD 0 0) }
        | .uint16 | .uint32 | .uint64 | .int16 | .int32 | .int64
        | .date | .float32 | .float64 | .dateMilli | .dateMicro | .dateNano =>
            let d0 := { dstPrev with bits := setLowBytes len dstPrev.bits (leRead src) }
            (fr_value_box_hton d0 d0).getD d0
        | _ => dstPrev
      (Except.ok len, { d with typ := t, tainted := tainted, enumv := none })

/-- The v4-in-v6 mapping prefix ::ffff:0:0/96 (v4_v6_map). -/
def v4v6map : List Nat :=
  [0, 0, 0, 0, 0, 0, 0, 0, 0, 0, 255, 255]

/-- Big-endian value of a byte list. -/
def beRead (bs : List Nat) : Nat :=
  leRead bs.reverse

/-- Decimal digits (ASCII bytes) of a natural number. -/
def natDecBytes (n : Nat) : List Nat :=
  strBytes (toString n)

/-- Decimal digits (ASCII bytes) of an integer, sign included. -/
def intDecBytes (i : Int) : List Nat :=
  strBytes (toString i)

/-- Lowercase hex digits of `n`, minimal width (printf %x). -/
def hexMinBytes (n : Nat) : List Nat :=
  (Nat.toDigits 16 n).map Char.toNat

/-- Lowercase hex digits of a byte, width 2 (printf %02x). -/
def hex2Bytes (b : Nat) : List Nat :=
  [hextab.getD (b % 256 / 16) 0, hextab.getD (b % 16) 0]

/-- fr_bin2hex: lowercase hex dump of a byte list. -/
def binToHex (bs : List Nat) : List Nat :=
  (bs.map hex2Bytes).flatten

/-- Hex value of one ASCII character, if it is a hex digit. -/
def hexVal (c : Nat) : Option Nat :=
  match memchrHex (tolowerB c) with
  | some i => if i < 16 then some i else none
  | none => none

/-- fr_hex2bin on an even-length hex string: the decoded bytes, or
none at the first invalid character (the caller treats a short decode
as an error). -/
def hexPairs : List Nat → Option (List Nat)
  | [] => some []
  | [_] => none
  | a :: b :: rest => do
      let hi ← hexVal a
      let lo ← hexVal b
      let tl ← hexPairs rest
      pure ((hi * 16 + lo) :: tl)

/-- Decimal parse of a non-empty all-digit byte list. -/
def parseDecBytes (l : List Nat) : Option Nat :=
  if l = [] ∨ l.any (fun c => !isDigitB c) then none
  else some (l.foldl (fun acc c => acc * 10 + (c - 48)) 0)

/-- Parse of a 1-4 digit hex group. -/
def parseHexGroup (l : List Nat) : Option Nat :=
  if l = [] ∨ l.length > 4 then none
  else l.foldlM (fun acc c => (hexVal c).map fun v => acc * 16 + v) 0

/-- Modelled from the spec: fr_inet_pton4, the external IPv4
address-string parser (src/ only holds its callers).  Parses dotted
decimal with an optional /mask (mask ≤ 32); hostname resolution is
not modelled.  Unwritten address bytes are zero. -/
def fr_inet_pton4 (bs : List Nat) : Option FrIpaddr :=
  let core (main : List Nat) (plen : Nat) : Option FrIpaddr :=
    match (main.splitOn 46).mapM parseDecBytes with
    | some [a, b, c, d] =>
        if a ≤ 255 ∧ b ≤ 255 ∧ c ≤ 255 ∧ d ≤ 255 then
          some { af := AF_INET, addr := [a, b, c, d] ++ List.replicate 12 0, plen := plen, scopeId := 0 }
        else none
    | _ => none
  match bs.splitOn 47 with
  | [main] => core main 32
  | [main, p] => (parseDecBytes p).bind fun plen => if plen ≤ 32 then core main plen else none
  | _ => none

/-- Scan for the first "::" in an IPv6 literal, splitting around it. -/
def findDoubleColon : List Nat → Option (List Nat × List Nat)
  | [] => none
  | [_] => none
  | 58 :: 58 :: rest => some ([], rest)
  | c :: rest => (findDoubleColon rest).map (fun p => (c :: p.1, p.2))

/-- 16-byte address from hex groups with a zero-filled gap. -/
def v6Groups (gl gr : List Nat) : Option (List Nat) :=
  if gl.length + gr.length > 7 then none
  else some ((gl ++ List.replicate (8 - gl.length - gr.length) 0 ++ gr).flatMap
    (fun g => [g / 256 % 256, g % 256]))

/-- Modelled from the spec: fr_inet_pton6, the external IPv6
address-string parser.  Parses colon-hex groups with at most one "::"
and an optional /mask (mask ≤ 128); hostname resolution, scope
suffixes and the embedded-dotted-quad form are not modelled. -/
def fr_inet_pton6 (bs : List Nat) : Option FrIpaddr :=
  let core (main : List Nat) (plen : Nat) : Option FrIpaddr := do
    let addr ←
      match findDoubleColon main with
      | some (l, r) => do
          let gl ← if l = [] then pure [] else (l.splitOn 58).mapM parseHexGroup
          let gr ← if r = [] then pure [] else (r.splitOn 58).mapM parseHexGroup
          v6Groups gl gr
      | none => do
          let gs ← (main.splitOn 58).mapM parseHexGroup
          if gs.length = 8 then v6Groups gs [] else none
    pure { af := AF_INET6, addr := addr, plen := plen, scopeId := 0 }
  match bs.splitOn 47 with
  | [main] => core main 128
  | [main, p] => (parseDecBytes p).bind fun plen => if plen ≤ 128 then core main plen else none
  | _ => none

/-- Modelled from the spec: the dictionary's per-type size-bound table
dict_attr_sizes (it lives outside src/); its bounds coincide with the
wire-size table for the kinds used here. -/
def dict_attr_sizes (t : FrType) : Nat × Nat :=
  fr_value_box_network_sizes t

/-- Modelled from the spec: fr_strtoll, the integer-string parser
used by fr_value_box_integer_str.  Decimal with an optional sign,
clamped into the int64 range like strtoll; the whole input must be
consumed (the caller checks the end pointer, modelled by returning
none on any trailing character).  Octal/hex forms are not modelled. -/
def fr_strtoll (bs : List Nat) : Option Int :=
  let (neg, digits) :=
    match bs with
    | 45 :: rest => (true, rest)
    | 43 :: rest => (false, rest)
    | l => (false, l)
  (parseDecBytes digits).map fun n =>
    let v : Int := if neg then -(n : Int) else (n : Int)
    max (min v (2 ^ 63 - 1)) (-(2 ^ 63 : Int))

/-- Two's-complement unsigned image of an integer in `w` bits. -/
def toUnsigned (w : Nat) (i : Int) : Nat :=
  (i % (2 ^ w : Int)).toNat

/-- fr_value_box_integer_str: parse an integer string into the
destination's field with exact range validation. -/
def fr_value_box_integer_str (d0 : FrValueBox) (dstType : FrType) (inB : List Nat) :
    Option FrValueBox :=
  match fr_strtoll inB with
  | none => none
  | some sint =>
    let uinteger : Nat := toUnsigned 64 sint
    match dstType with
    | .uint8 => if uinteger > 2 ^ 8 - 1 then none
        else some { d0 with bits := setLowBytes 1 d0.bits uinteger }
    | .uint16 => if uinteger > 2 ^ 16 - 1 then none
        else some { d0 with bits := setLowBytes 2 d0.bits uinteger }
    | .uint32 => if uinteger > 2 ^ 32 - 1 then none
        else some { d0 with bits := setLowBytes 4 d0.bits uinteger }
    | .uint64 => some { d0 with bits := setLowBytes 8 d0.bits uinteger }
    | .int8 => if sint > 2 ^ 7 - 1 ∨ sint < -(2 ^ 7 : Int) then none
        else some { d0 with bits := setLowBytes 1 d0.bits (toUnsigned 8 sint) }
    | .int16 => if sint > 2 ^ 15 - 1 ∨ sint < -(2 ^ 15 : Int) then none
        else some { d0 with bits := setLowBytes 2 d0.bits (toUnsigned 16 sint) }
    | .int32 => if sint > 2 ^ 31 - 1 ∨ sint < -(2 ^ 31 : Int) then none
        else some { d0 with bits := setLowBytes 4 d0.bits (toUnsigned 32 sint) }
    | .int64 => some { d0 with bits := setLowBytes 8 d0.bits (toUnsigned 64 sint) }
    | .dateMilli | .dateMicro | .dateNano =>
        some { d0 with bits := setLowBytes 8 d0.bits uinteger }
    | _ => none

/-- fr_value_box_from_str: parse a presentation string into a value of
kind dstType.  The alias-lookup block reduces to a fall-through under
the empty dictionary (the dictionary is an external collaborator and
is modelled as empty), and COMBO kind rewriting is not embedded.
Branches whose parsers live outside src/ with no spec grammar needed
by the claims (ifid, ethernet, floats, calendar dates, size, timeval,
abinary) are not modelled and return none. -/
def fr_value_box_from_str (d0 : FrValueBox) (dstType : FrType) (dstEnumv : Option Nat)
    (inB : List Nat) (quote : Nat) (tainted : Bool) : Option FrValueBox :=
  if dstType = .invalid then none
  else
    let len := inB.length
    let finish (d : FrValueBox) (ret : Nat) : Option FrValueBox :=
      some { d with length := ret, typ := dstType, tainted := tainted, enumv := dstEnumv }
    match dstType with
    | .string_ =>
        if quote = 0 then finish { d0 with buf := inB } len
        else
          let un := value_str_unescape inB quote
          finish { d0 with buf := un } un.length
    | .octets =>
        if len < 2 ∨ ¬(inB.getD 0 0 = 48 ∧ (inB.getD 1 0 = 120 ∨ inB.getD 1 0 = 88)) then
          finish { d0 with buf := inB } len
        else if (len - 2) % 2 ≠ 0 then none
        else
          match hexPairs (inB.drop 2) with
          | none => none
          | some bs => finish { d0 with buf := bs } ((len - 2) / 2)
    | .ipv4addr =>
        match fr_inet_pton4 inB with
        | none => none
        | some a => if a.plen ≠ 32 then none else finish { d0 with ip := a } (dict_attr_sizes dstType).2
    | .ipv4net =>
        match fr_inet_pton4 inB with
        | none => none
        | some a => finish { d0 with ip := a } (dict_attr_sizes dstType).2
    | .ipv6addr =>
        match fr_inet_pton6 inB with
        | none => none
        | some a => if a.plen ≠ 128 then none else finish { d0 with ip := a } (dict_attr_sizes dstType).2
    | .ipv6net =>
        match fr_inet_pton6 inB with
        | none => none
        | some a => finish { d0 with ip := a } (dict_attr_sizes dstType).2
    | .uint8 | .uint16 | .uint32 | .uint64
    | .int8 | .int16 | .int32 | .int64
    | .dateMilli | .dateMicro | .dateNano =>
        if len ≥ 256 then none
        else
          match fr_value_box_integer_str d0 dstType inB with
          | none => none
          | some d => finish d (dict_attr_sizes dstType).2
    | .boolean =>
        if len ≥ 256 then none
        else if inB = strBytes "yes" ∨ inB = strBytes "true" then
          finish { d0 with bits := setLowBytes 1 d0.bits 1 } (dict_attr_sizes dstType).2
        else if inB = strBytes "no" ∨ inB = strBytes "false" then
          finish { d0 with bits := setLowBytes 1 d0.bits 0 } (dict_attr_sizes dstType).2
        else none
    | _ => none

/-- Modelled from the spec: fr_inet_ntop for IPv4 (dotted decimal)
and IPv6 (colon-hex, printed here in full uncompressed form — the
zero-run compression of the external function is not modelled; no
claim depends on the exact v6 text). -/
def fr_inet_ntop (ip : FrIpaddr) : List Nat :=
  if ip.af = AF_INET then
    match ip.addr.take 4 with
    | [a, b, c, d] =>
        natDecBytes a ++ [46] ++ natDecBytes b ++ [46] ++ natDecBytes c ++ [46] ++ natDecBytes d
    | _ => []
  else
    let groups := (List.range 8).map fun i =>
      (ip.addr.getD (2 * i) 0) * 256 + ip.addr.getD (2 * i + 1) 0
    (groups.map hexMinBytes).intersperse [58] |>.flatten

/-- Zero-padded 6-digit decimal (printf %06u) for the timeval print. -/
def pad6 (n : Nat) : List Nat :=
  let s := natDecBytes n
  List.replicate (6 - s.length) 48 ++ s

/-- fr_value_box_asprint with no quoting (the only mode the cast path
uses).  Kinds whose printing delegates to external libc/OS helpers
with no behavior visible in src/ (floats via %f/%g, calendar dates
via strftime, the abinary filter printer) are not modelled and return
none; `quote` handling for strings (fr_snprint) is likewise only
modelled for quote = 0.  The enum-alias lookup reduces to a
fall-through under the empty dictionary. -/
def fr_value_box_asprint (data : FrValueBox) (quote : Nat) : Option (List Nat) :=
  if data.typ = .invalid then none
  else
    match data.typ with
    | .string_ => if quote = 0 then some (data.buf.take data.length) else none
    | .octets => some (strBytes "0x" ++ binToHex (data.buf.take data.length))
    | .ipv4addr | .ipv6addr => some (fr_inet_ntop data.ip)
    | .ipv4net | .ipv6net =>
        some (fr_inet_ntop data.ip ++ [47] ++ natDecBytes (data.ip.plen % 256))
    | .ifid =>
        some (((List.range 4).map fun i =>
          hexMinBytes ((data.ifid.getD (2 * i) 0) * 256 + data.ifid.getD (2 * i + 1) 0)).intersperse [58] |>.flatten)
    | .ether => some ((data.ether.take 6 |>.map hex2Bytes).intersperse [58] |>.flatten)
    | .boolean => some (if data.bits % 2 ^ 8 ≠ 0 then strBytes "yes" else strBytes "no")
    | .uint8 => some (natDecBytes (data.bits % 2 ^ 8))
    | .uint16 => some (natDecBytes (data.bits % 2 ^ 16))
    | .uint32 => some (natDecBytes (data.bits % 2 ^ 32))
    | .uint64 => some (natDecBytes (data.bits % 2 ^ 64))
    | .int8 => some (intDecBytes (toSigned 8 data.bits))
    | .int16 => some (intDecBytes (toSigned 16 data.bits))
    | .int32 => some (intDecBytes (toSigned 32 data.bits))
    | .int64 => some (intDecBytes (toSigned 64 data.bits))
    | .dateMilli | .dateMicro | .dateNano => some (natDecBytes (data.bits % 2 ^ 64))
    | .size => some (natDecBytes (data.bits % 2 ^ 64))
    | .timeval => some (natDecBytes data.tvSec ++ [46] ++ pad6 data.tvUsec)
    | _ => none

/-- fr_value_box_cast_to_strvalue: octets cast to their raw character
content verbatim; everything else casts through its unquoted
presentation print.  `d0` is the zeroed destination (the taint flag
is never set here: the result keeps the memset value false). -/
def fr_value_box_cast_to_strvalue (d0 src : FrValueBox) : Option FrValueBox :=
  match src.typ with
  | .octets =>
      some { d0 with buf := src.buf.take src.length, length := src.length, typ := .string_ }
  | _ =>
      (fr_value_box_asprint src 0).map fun s =>
        { d0 with buf := s, length := s.length, typ := .string_ }

/-- fr_value_box_cast_to_octets: strings cast to raw bytes, IP kinds
to their wire-style layouts, and every other fixed scalar through the
byte-order flip of its in-memory field (the FLOAT32/FLOAT64 read-dst
slip of fr_value_box_hton applies here too, on the zeroed dst).  The
final memsteal sets taint from the source. -/
def fr_value_box_cast_to_octets (d0 src : FrValueBox) : Option FrValueBox :=
  let steal (base : FrValueBox) (bin : List Nat) : Option FrValueBox :=
    some { base with typ := .octets, tainted := src.tainted, buf := bin,
                     length := bin.length, enumv := none }
  match src.typ with
  | .string_ => steal d0 (src.buf.take src.length)
  | .ipv4addr => steal d0 (src.ip.addr.take 4)
  | .ipv4net => steal d0 (src.ip.plen % 256 :: src.ip.addr.take 4)
  | .ipv6addr => steal d0 (src.ip.addr.take 16)
  | .ipv6net => steal d0 (src.ip.scopeId % 256 :: src.ip.plen % 256 :: src.ip.addr.take 16)
  | t =>
      let h := (fr_value_box_hton d0 src).getD d0
      steal h ((fieldMemBytes h t).take (fr_value_box_field_sizes t))

/-- fr_value_box_cast_to_ipv4addr.  Every branch that does not fail
falls through to the tail that forces af = AF_INET, prefix = 32,
scope 0 and the destination type, so those fields are unconditional
on success. -/
def fr_value_box_cast_to_ipv4addr (d0 : FrValueBox) (dstEnumv : Option Nat)
    (src : FrValueBox) : Option FrValueBox :=
  let setAddr (bs : List Nat) : FrValueBox :=
    { d0 with ip := { d0.ip with addr := overwriteFront d0.ip.addr bs } }
  let inner : Option FrValueBox :=
    match src.typ with
    | .ipv6addr =>
        if src.ip.addr.take 12 ≠ v4v6map then none
        else some (setAddr ((src.ip.addr.drop 12).take 4))
    | .ipv4net =>
        if src.ip.plen ≠ 32 then none
        else some (setAddr (src.ip.addr.take 4))
    | .ipv6net =>
        if src.ip.plen ≠ 128 then none
        else if src.ip.addr.take 12 ≠ v4v6map then none
        else some (setAddr ((src.ip.addr.drop 12).take 4))
    | .string_ =>
        fr_value_box_from_str d0 .ipv4addr dstEnumv (src.buf.take src.length) 0 false
    | .octets =>
        if src.length ≠ 4 then none else some (setAddr (src.buf.take 4))
    | .uint32 => some (setAddr (beBytes 4 src.bits))
    | _ => none
  inner.map fun d =>
    { d with ip := { d.ip with af := AF_INET, plen := 32, scopeId := 0 }, typ := .ipv4addr }

/-- fr_value_box_cast_to_ipv4prefix of the source (named ipv4net
here).  Note the source's default branch is a plain break, so any
unlisted source kind "succeeds" with the zeroed datum, and the uint32
branch falls through into that default harmlessly. -/
def fr_value_box_cast_to_ipv4net (d0 : FrValueBox) (dstEnumv : Option Nat)
    (src : FrValueBox) : Option FrValueBox :=
  let inner : Option FrValueBox :=
    match src.typ with
    | .ipv4addr => some { d0 with ip := src.ip }
    | .ipv6addr =>
        if src.ip.addr.take 12 ≠ v4v6map then none
        else some { d0 with ip := { d0.ip with
          addr := overwriteFront d0.ip.addr ((src.ip.addr.drop 12).take 4), plen := 32 } }
    | .ipv6net =>
        if src.ip.addr.take 12 ≠ v4v6map then none
        else if src.ip.plen < 96 then none
        else some { d0 with ip := { d0.ip with
          addr := overwriteFront d0.ip.addr ((src.ip.addr.drop 12).take 4),
          plen := src.ip.plen - 96 } }
    | .string_ =>
        fr_value_box_from_str d0 .ipv4net dstEnumv (src.buf.take src.length) 0 false
    | .octets =>
        if src.length ≠ 5 then none
        else some { d0 with ip := { d0.ip with
          plen := src.buf.getD 0 0,
          addr := overwriteFront d0.ip.addr ((src.buf.drop 1).take 4) } }
    | .uint32 => some { d0 with ip := { d0.ip with
          addr := overwriteFront d0.ip.addr (beBytes 4 src.bits), plen := 32 } }
    | _ => some d0
  inner.map fun d =>
    { d with ip := { d.ip with af := AF_INET, scopeId := 0 }, typ := .ipv4net }

/-- fr_value_box_cast_to_ipv6addr.  The tail forces af = AF_INET6 and
prefix = 128 on every success; the source's default branch prints an
error but then breaks instead of returning, so unlisted source kinds
"succeed" with the zeroed address. -/
def fr_value_box_cast_to_ipv6addr (d0 : FrValueBox) (dstEnumv : Option Nat)
    (src : FrValueBox) : Option FrValueBox :=
  let inner : Option FrValueBox :=
    match src.typ with
    | .ipv4addr =>
        some { d0 with ip := { d0.ip with
          addr := overwriteFront d0.ip.addr (v4v6map ++ src.ip.addr.take 4), scopeId := 0 } }
    | .ipv4net =>
        if src.ip.plen ≠ 32 then none
        else some { d0 with ip := { d0.ip with
          addr := overwriteFront d0.ip.addr (v4v6map ++ src.ip.addr.take 4), scopeId := 0 } }
    | .ipv6net =>
        if src.ip.plen ≠ 128 then none
        else some { d0 with ip := { d0.ip with
          addr := overwriteFront d0.ip.addr (src.ip.addr.take 16), scopeId := src.ip.scopeId } }
    | .string_ =>
        fr_value_box_from_str d0 .ipv6addr dstEnumv (src.buf.take src.length) 0 false
    | .octets =>
        if src.length ≠ 16 then none
        else some { d0 with ip := { d0.ip with addr := overwriteFront d0.ip.addr (src.buf.take 16) } }
    | _ => some d0
  inner.map fun d =>
    { d with ip := { d.ip with af := AF_INET6, plen := 128 }, typ := .ipv6addr }

/-- fr_value_box_cast_to_ipv6prefix of the source (named ipv6net
here).  The octets branch reproduces the source's memcpy from the
start of the buffer (so the scope and prefix bytes are copied into
the address as well); the default branch is a plain break. -/
def fr_value_box_cast_to_ipv6net (d0 : FrValueBox) (dstEnumv : Option Nat)
    (src : FrValueBox) : Option FrValueBox :=
  let inner : Option FrValueBox :=
    match src.typ with
    | .ipv4addr =>
        some { d0 with ip := { d0.ip with
          addr := overwriteFront d0.ip.addr (v4v6map ++ src.ip.addr.take 4),
          plen := 128, scopeId := 0 } }
    | .ipv4net =>
        some { d0 with ip := { d0.ip with
          addr := overwriteFront d0.ip.addr (v4v6map ++ src.ip.addr.take 4),
          plen := 96 + src.ip.plen, scopeId := 0 } }
    | .ipv6addr =>
        some { d0 with ip := { d0.ip with
          addr := overwriteFront d0.ip.addr (src.ip.addr.take 16),
          plen := 128, scopeId := src.ip.scopeId } }
    | .string_ =>
        fr_value_box_from_str d0 .ipv6net dstEnumv (src.buf.take src.length) 0 false
    | .octets =>
        if src.length ≠ 18 then none
        else some { d0 with ip := { d0.ip with
          scopeId := src.buf.getD 0 0, plen := src.buf.getD 1 0,
          addr := overwriteFront d0.ip.addr (src.buf.take 16) } }
    | _ => some d0
  inner.map fun d =>
    { d with ip := { d.ip with af := AF_INET6 }, typ := .ipv6net }

/-- The do_octets block of fr_value_box_cast: reinterpret an octets
payload of the destination's exact wire width through a temporary box
and the byte-order flip.  Only integer-like and ifid/ethernet
destinations reach this label (the IP-address fixup switch at its end
is dead code, since IP destinations are dispatched earlier); the
temporary's zeroed meta then overwrites the enum attachment and taint.
The hton result is unconditionally used, as the source ignores its
return value. -/
def castDoOctets (d0 : FrValueBox) (dstType : FrType) (dstEnumv : Option Nat)
    (src : FrValueBox) : Option FrValueBox :=
  if src.length < (fr_value_box_network_sizes dstType).1 then none
  else if src.length > (fr_value_box_network_sizes dstType).2 then none
  else
    let tmp0 :=
      match dstType with
      | .ifid => { zeroBox with ifid := overwriteFront zeroBox.ifid (src.buf.take 8) }
      | .ether => { zeroBox with ether := overwriteFront zeroBox.ether (src.buf.take 6) }
      | t => { zeroBox with bits := setLowBytes (bitsWidth t) zeroBox.bits (leRead (src.buf.take (bitsWidth t))) }
    let tmp := { tmp0 with typ := dstType }
    let d := { d0 with enumv := dstEnumv }
    some ((fr_value_box_hton d tmp).getD d)

/-- The tail of fr_value_box_cast after the specialised dispatch: the
ifid/uint64 and uint64/ethernet reinterpretations, the integer
widening/narrowing ladder (including the uint64-to-int32 range check
that reads the uint32 union field), the timeval block that falls
through, the octets reinterpretation, the IPv4-address/uint32
conversions, and the final field memcpy. -/
def castGeneric (d0 : FrValueBox) (dstType : FrType) (dstEnumv : Option Nat)
    (src : FrValueBox) : Option FrValueBox :=
  let fixedLen (d : FrValueBox) : Option FrValueBox :=
    some { d with typ := dstType, enumv := dstEnumv }
  if src.typ = .string_ then
    fr_value_box_from_str d0 dstType dstEnumv (src.buf.take src.length) 0 false
  else if src.typ = .ifid ∧ dstType = .uint64 then
    fixedLen { d0 with bits := setLowBytes 8 d0.bits (bswap64 (leRead (src.ifid.take 8))) }
  else if src.typ = .uint64 ∧ dstType = .ether then
    let array := leBytes 8 (bswap64 src.bits)
    if array.getD 0 0 ≠ 0 ∨ array.getD 1 0 ≠ 0 then none
    else fixedLen { d0 with ether := array.drop 2 }
  else if dstType = .uint16 then
    match src.typ with
    | .uint8 => fixedLen { d0 with bits := setLowBytes 2 d0.bits (src.bits % 2 ^ 8) }
    | .octets => castDoOctets d0 dstType dstEnumv src
    | _ => none
  else if dstType = .uint32 then
    match src.typ with
    | .uint8 => fixedLen { d0 with bits := setLowBytes 4 d0.bits (src.bits % 2 ^ 8) }
    | .uint16 => fixedLen { d0 with bits := setLowBytes 4 d0.bits (src.bits % 2 ^ 16) }
    | .int32 =>
        if toSigned 32 src.bits < 0 then none
        else fixedLen { d0 with bits := setLowBytes 4 d0.bits (src.bits % 2 ^ 32) }
    | .octets => castDoOctets d0 dstType dstEnumv src
    | _ => none
  else if dstType = .uint64 then
    match src.typ with
    | .uint8 => fixedLen { d0 with bits := setLowBytes 8 d0.bits (src.bits % 2 ^ 8) }
    | .uint16 => fixedLen { d0 with bits := setLowBytes 8 d0.bits (src.bits % 2 ^ 16) }
    | .uint32 => fixedLen { d0 with bits := setLowBytes 8 d0.bits (src.bits % 2 ^ 32) }
    | .date => fixedLen { d0 with bits := setLowBytes 8 d0.bits (src.bits % 2 ^ 32) }
    | .octets => castDoOctets d0 dstType dstEnumv src
    | _ => none
  else if dstType = .int32 then
    match src.typ with
    | .uint8 => fixedLen { d0 with bits := setLowBytes 4 d0.bits (src.bits % 2 ^ 8) }
    | .uint16 => fixedLen { d0 with bits := setLowBytes 4 d0.bits (src.bits % 2 ^ 16) }
    | .uint32 =>
        if src.bits % 2 ^ 32 > 2 ^ 31 - 1 then none
        else fixedLen { d0 with bits := setLowBytes 4 d0.bits (src.bits % 2 ^ 32) }
    | .uint64 =>
        if src.bits % 2 ^ 32 > 2 ^ 31 - 1 then none
        else fixedLen { d0 with bits := setLowBytes 4 d0.bits (src.bits % 2 ^ 32) }
    | .octets => castDoOctets d0 dstType dstEnumv src
    | _ => none
  else
    let tvStep : Option FrValueBox :=
      if dstType = .timeval then
        match src.typ with
        | .uint8 => some { d0 with tvSec := src.bits % 2 ^ 8, tvUsec := 0 }
        | .uint16 => some { d0 with tvSec := src.bits % 2 ^ 16, tvUsec := 0 }
        | .uint32 => some { d0 with tvSec := src.bits % 2 ^ 32, tvUsec := 0 }
        | .uint64 => some { d0 with tvSec := src.bits % 2 ^ 64, tvUsec := 0 }
        | _ => none
      else some d0
    tvStep.bind fun d1 =>
      if src.typ = .octets then castDoOctets d1 dstType dstEnumv src
      else if dstType = .ipv4addr ∧ (src.typ = .uint32 ∨ src.typ = .date ∨ src.typ = .int32) then
        some { d1 with
          ip := { af := AF_INET, addr := overwriteFront d1.ip.addr (beBytes 4 src.bits),
                  plen := 32, scopeId := 0 },
          typ := dstType, enumv := dstEnumv }
      else if src.typ = .ipv4addr ∧ (dstType = .uint32 ∨ dstType = .date ∨ dstType = .int32) then
        some { d1 with bits := setLowBytes 4 d1.bits (bswap32 (leRead (src.ip.addr.take 4))),
                       typ := dstType, enumv := dstEnumv }
      else
        let d2 :=
          match src.typ with
          | .string_ | .octets => { d1 with buf := src.buf }
          | .ipv4addr | .ipv4net | .ipv6addr | .ipv6net => { d1 with ip := src.ip }
          | .ifid => { d1 with ifid := src.ifid }
          | .ether => { d1 with ether := src.ether }
          | .timeval => { d1 with tvSec := src.tvSec, tvUsec := src.tvUsec }
          | .abinary => { d1 with filter := src.filter }
          | t => { d1 with bits := setLowBytes (bitsWidth t) d1.bits src.bits }
        some { d2 with typ := dstType, enumv := dstEnumv }

/-- fr_value_box_cast: convert src to dstType.  Invalid kinds are
precondition failures; a destination equal to the source kind
degrades to fr_value_box_copy; otherwise the destination is memset to
zero and dispatched (so the taint flag of the result is false unless
a branch explicitly propagates it). -/
def fr_value_box_cast (dstPrev : FrValueBox) (dstType : FrType) (dstEnumv : Option Nat)
    (src : FrValueBox) : Option FrValueBox :=
  if dstType = .invalid then none
  else if src.typ = .invalid then none
  else if dstType = src.typ then fr_value_box_copy dstPrev src
  else
    match dstType with
    | .string_ => fr_value_box_cast_to_strvalue zeroBox src
    | .octets => fr_value_box_cast_to_octets zeroBox src
    | .ipv4addr => fr_value_box_cast_to_ipv4addr zeroBox dstEnumv src
    | .ipv4net => fr_value_box_cast_to_ipv4net zeroBox dstEnumv src
    | .ipv6addr => fr_value_box_cast_to_ipv6addr zeroBox dstEnumv src
    | .ipv6net => fr_value_box_cast_to_ipv6net zeroBox dstEnumv src
    | _ => castGeneric zeroBox dstType dstEnumv src

/-- Decidable equality for decode results, so concrete decode
evaluations can be settled by decide. -/
instance : DecidableEq (Except FrDecodeErr Nat) := fun x y =>
  match x, y with
  | .ok a, .ok b =>
      if h : a = b then .isTrue (h ▸ rfl) else .isFalse (fun hc => h (Except.ok.inj hc))
  | .error a, .error b =>
      if h : a = b then .isTrue (h ▸ rfl) else .isFalse (fun hc => h (Except.error.inj hc))
  | .ok _, .error _ => .isFalse (fun hc => Except.noConfusion hc)
  | .error _, .ok _ => .isFalse (fun hc => Except.noConfusion hc)

/-- Equality of the kind-selected payload of two boxes of the same
kind: buffer contents up to the stored length for variable-size
kinds, the active union field (modulo its width) otherwise. -/
def payloadEq (r src : FrValueBox) : Prop :=
  match src.typ with
  | .string_ | .octets =>
      r.buf.take r.length = src.buf.take src.length ∧ r.length = src.length
  | .ipv4addr | .ipv4net | .ipv6addr | .ipv6net => r.ip = src.ip
  | .ifid => r.ifid = src.ifid
  | .ether => r.ether = src.ether
  | .timeval => r.tvSec = src.tvSec ∧ r.tvUsec = src.tvUsec
  | .abinary => r.filter = src.filter
  | .invalid => True
  | t => r.bits % 2 ^ (8 * bitsWidth t) = src.bits % 2 ^ (8 * bitsWidth t)

/-- The address-field invariant every constructor of value.c
establishes for plain (non-prefix) IP values: a fully constructed
IPv4-address box has family AF_INET, prefix 32 and no scope, and an
IPv6-address box has family AF_INET6 and prefix 128. -/
def addrWellFormed (v : FrValueBox) : Prop :=
  (v.typ = .ipv4addr → v.ip.af = AF_INET ∧ v.ip.plen = 32 ∧ v.ip.scopeId = 0) ∧
  (v.typ = .ipv6addr → v.ip.af = AF_INET6 ∧ v.ip.plen = 128)

/-- Wire image of the IPv6 address ::1 (last byte 1). -/
def c1V6Wire : List Nat :=
  List.replicate 15 0 ++ [1]

/-- An IPv6-address box holding ::1. -/
def c1V6Box : FrValueBox :=
  { zeroBox with
    typ := .ipv6addr
    ip := { af := AF_INET6, addr := c1V6Wire, plen := 128, scopeId := 0 } }

/-- A float32 box whose stored bit pattern is 0x3F800000 (1.0f). -/
def c1F32Box : FrValueBox :=
  { zeroBox with typ := .float32, bits := 0x3F800000 }

/-- The IPv4 prefix 10.0.0.0/8. -/
def c2Net8 : FrValueBox :=
  { zeroBox with
    typ := .ipv4net
    ip := { af := AF_INET, addr := [10, 0, 0, 0] ++ List.replicate 12 0, plen := 8, scopeId := 0 } }

/-- The IPv4 prefix 10.1.0.0/16. -/
def c2Net16 : FrValueBox :=
  { zeroBox with
    typ := .ipv4net
    ip := { af := AF_INET, addr := [10, 1, 0, 0] ++ List.replicate 12 0, plen := 16, scopeId := 0 } }

/-- A uint32 box holding 0x80000000. -/
def c3BigBox : FrValueBox :=
  { zeroBox with typ := .uint32, bits := 0x80000000 }

/-- A uint32 box holding 1. -/
def c3OneBox : FrValueBox :=
  { zeroBox with typ := .uint32, bits := 1 }

/-- A uint64 box holding 2^32 (above the int32 maximum). -/
def c4SrcBox : FrValueBox :=
  { zeroBox with typ := .uint64, bits := 4294967296 }

/-- A string box holding "hello". -/
def c5HelloBox : FrValueBox :=
  { zeroBox with typ := .string_, buf := [104, 101, 108, 108, 111], length := 5 }

/-- A tainted octets box. -/
def c8SrcBox : FrValueBox :=
  { zeroBox with typ := .octets, buf := [104, 105], length := 2, tainted := true }

/-- A string box with taint and an enum attachment, for the deep-copy
witness. -/
def c9Box : FrValueBox :=
  { zeroBox with typ := .string_, buf := [97, 98, 99], length := 3, tainted := true, enumv := some 7 }

/-- The deep copy of c9Box into a zeroed destination. -/
def c9CopyRes : FrValueBox :=
  { zeroBox with typ := .string_, buf := [97, 98, 99], length := 3, tainted := true, enumv := some 7 }

/-- The IPv4 prefix 10.0.0.1/32, a castable source for both address
destinations. -/
def c10SrcBox : FrValueBox :=
  { zeroBox with
    typ := .ipv4net
    ip := { af := AF_INET, addr := [10, 0, 0, 1] ++ List.replicate 12 0, plen := 32, scopeId := 0 } }

/-- Result of casting c10SrcBox to the IPv4-address kind. -/
def c10R4Box : FrValueBox :=
  { zeroBox with
    typ := .ipv4addr
    ip := { af := AF_INET, addr := [10, 0, 0, 1] ++ List.replicate 12 0, plen := 32, scopeId := 0 } }

/-- Result of casting c10SrcBox to the IPv6-address kind (v4-mapped). -/
def c10R6Box : FrValueBox :=
  { zeroBox with
    typ := .ipv6addr
    ip := { af := AF_INET6, addr := v4v6map ++ [10, 0, 0, 1], plen := 128, scopeId := 0 } }

/-- Success of fr_value_box_cast_to_ipv4addr always carries the
normalised address fields, because the tail after the dispatch switch
overwrites them on every fall-through path. -/
theorem castToIpv4addrFields {d0 : FrValueBox} {e : Option Nat} {src r : FrValueBox}
    (h : fr_value_box_cast_to_ipv4addr d0 e src = some r) :
    r.ip.af = AF_INET ∧ r.ip.plen = 32 ∧ r.ip.scopeId = 0 ∧ r.typ = .ipv4addr := by
  unfold fr_value_box_cast_to_ipv4addr at h
  simp only [Option.map_eq_some'] at h
  obtain ⟨d, -, hr⟩ := h
  subst hr
  simp

/-- Success of fr_value_box_cast_to_ipv6addr always carries family
AF_INET6 and prefix 128, for the same tail-overwrite reason. -/
theorem castToIpv6addrFields {d0 : FrValueBox} {e : Option Nat} {src r : FrValueBox}
    (h : fr_value_box_cast_to_ipv6addr d0 e src = some r) :
    r.ip.af = AF_INET6 ∧ r.ip.plen = 128 ∧ r.typ = .ipv6addr := by
  unfold fr_value_box_cast_to_ipv6addr at h
  simp only [Option.map_eq_some'] at h
  obtain ⟨d, -, hr⟩ := h
  subst hr
  simp

/-- C1: the network round-trip identity fails on this code.  Encoding
an IPv6-address value returns -1 outright (the generic memcpy's
field-size assertion cannot hold for the ip union); decoding the
16-byte wire image of ::1 silently drops the 16th address byte (the
memcpy of len - 1 bytes), so the decoded address is all zeros even
though the wire ends in 1; and the float32 encoding emits the
byte-swapped image of the uninitialised stack temporary (here zeroed),
not the big-endian image of the stored value 0x3F800000. -/
theorem c1_network_roundtrip_fails :
    (fr_value_box_to_network zeroBox 16 c1V6Box).1 = -1 ∧
    (fr_value_box_from_network zeroBox c1V6Wire .ipv6addr false).1 = Except.ok 16 ∧
    ((fr_value_box_from_network zeroBox c1V6Wire .ipv6addr false).2).ip.addr =
      List.replicate 16 0 ∧
    c1V6Wire.getD 15 0 = 1 ∧
    fr_value_box_to_network zeroBox 4 c1F32Box = (4, [0, 0, 0, 0], some 0) ∧
    beBytes 4 c1F32Box.bits = [63, 128, 0, 0] := by
  decide

/-- C2 counterexample: evaluating the less-or-equal operator with the
shorter prefix 10.0.0.0/8 on the left and 10.1.0.0/16 on the right
returns false (0), not true as the claim states: the operator's
direction filter rejects a_net < b_net for <= outright. -/
theorem c2_superset_le_counterexample :
    fr_value_box_cmp_op .le c2Net8 c2Net16 = 0 ∧
    fr_value_box_cmp_op .le c2Net8 c2Net16 ≠ 1 := by
  decide

/-- C2 amended: <= means "is contained in": it returns true when the
LONGER prefix is the left operand and the common 8 leading bits agree
(10.1.0.0/16 <= 10.0.0.0/8), true on identical prefixes, and false in
the claim's shorter-prefix-on-the-left direction. -/
theorem c2_cidr_le_direction :
    fr_value_box_cmp_op .le c2Net16 c2Net8 = 1 ∧
    fr_value_box_cmp_op .le c2Net8 c2Net8 = 1 ∧
    fr_value_box_cmp_op .le c2Net8 c2Net16 = 0 := by
  decide

/-- C3: comparing the unsigned-32-bit values 0x80000000 and 1 returns
less (-1), not greater, because the FR_TYPE_UINT32 case of
fr_value_box_cmp compares through the signed int32 union field
(CHECK(int32)), reading 0x80000000 as -2147483648. -/
theorem c3_uint32_cmp_uses_signed_field :
    fr_value_box_cmp c3BigBox c3OneBox = -1 ∧
    fr_value_box_cmp c3BigBox c3OneBox ≠ 1 := by
  decide

/-- C4: casting the uint64 value 2^32 to the signed 32-bit kind
succeeds and silently truncates to 0, instead of returning a range
error: the range check reads the uint32 union field (the low half of
the uint64 on the little-endian host), which is 0 for 2^32. -/
theorem c4_uint64_to_int32_truncates :
    (fr_value_box_cast zeroBox .int32 none c4SrcBox).map (fun b => (b.typ, b.bits)) =
      some (.int32, 0) ∧
    c4SrcBox.bits = 4294967296 := by
  decide

/-- C5: network encoding of a string or octets value of stored length
L into a D-byte buffer writes the first min(L, D) payload bytes,
returns min(L, D), and reports need = L exactly when L > D (0
otherwise); it never fails for these kinds. -/
theorem c5_partial_encode (tmpPrev : FrValueBox) (dst_len : Nat) (b : FrValueBox)
    (ht : b.typ = .string_ ∨ b.typ = .octets) :
    fr_value_box_to_network tmpPrev dst_len b =
      ((min b.length dst_len : Int), b.buf.take (min b.length dst_len),
        some (if b.length > dst_len then b.length else 0)) := by
  obtain ⟨typ, bits, ip, ifid, ether, buf, length, tvS, tvU, filt, ta, en⟩ := b
  rcases ht with h | h <;> subst h <;>
    simp only [fr_value_box_to_network] <;>
    split <;> rename_i hgt <;>
    simp_all <;> omega

/-- C5 witness: encoding the 5-byte string "hello" into a 3-byte
buffer writes "hel", returns 3 and reports need = 5. -/
theorem c5_partial_encode_witness :
    fr_value_box_to_network zeroBox 3 c5HelloBox = (3, [104, 101, 108], some 5) := by
  rw [c5_partial_encode zeroBox 3 c5HelloBox (Or.inl rfl)]
  decide

/-- C6: network decoding rejects (with a structured error naming the
kind and both the expected bound and the actual length) any input
shorter than the kind's minimum wire size (truncation) or longer than
its maximum (trailing garbage), leaving the destination box
untouched; the truncation check runs first. -/
theorem c6_decode_length_check (dstPrev : FrValueBox) (src : List Nat) (t : FrType)
    (tainted : Bool)
    (h : src.length < (fr_value_box_network_sizes t).1 ∨
         src.length > (fr_value_box_network_sizes t).2) :
    fr_value_box_from_network dstPrev src t tainted =
      (if src.length < (fr_value_box_network_sizes t).1 then
        (Except.error (FrDecodeErr.truncated t (fr_value_box_network_sizes t).1 src.length),
          dstPrev)
       else
        (Except.error (FrDecodeErr.trailing t (fr_value_box_network_sizes t).2 src.length),
          dstPrev)) := by
  rw [fr_value_box_from_network.eq_def]
  rcases h with h | h
  · rw [if_pos h, if_pos h]
  · by_cases h2 : src.length < (fr_value_box_network_sizes t).1
    · rw [if_pos h2, if_pos h2]
    · rw [if_neg h2, if_neg h2, if_pos h]

/-- C6 witness: decoding a uint32 from 3 bytes yields the truncation
error naming the kind, the 4-byte bound and the 3-byte actual length,
and constructs no value. -/
theorem c6_decode_length_check_witness :
    fr_value_box_from_network zeroBox [1, 2, 3] .uint32 false =
      (Except.error (FrDecodeErr.truncated .uint32 4 3), zeroBox) := by
  rw [c6_decode_length_check zeroBox [1, 2, 3] .uint32 false (Or.inl (by decide))]
  decide

/-- C7 counterexample: in expanded unescape mode (double quote), the
two-digit octal escape "\77" is NOT collapsed to byte 63; it is
copied through verbatim, backslash included, because the code demands
at least three characters after the backslash. -/
theorem c7_short_octal_counterexample :
    value_str_unescape [92, 55, 55] 34 = [92, 55, 55] ∧
    value_str_unescape [92, 55, 55] 34 ≠ [63] := by
  decide

/-- C7 amended: in expanded mode, only a backslash followed by
exactly three digit characters is collapsed (to the octal value of
the digits, truncated to a byte); a backslash followed by only one or
two octal digits is copied through verbatim, backslash included. -/
theorem c7_exactly_three_octal_digits (quote d1 d2 d3 : Nat)
    (hq0 : quote ≠ 0) (hq1 : quote ≠ 39) (hqd : quote ≠ d1)
    (h1 : 48 ≤ d1 ∧ d1 ≤ 55) (h2 : 48 ≤ d2 ∧ d2 ≤ 55) (h3 : 48 ≤ d3 ∧ d3 ≤ 55) :
    value_str_unescape [92, d1, d2, d3] quote =
      [((d1 - 48) * 64 + (d2 - 48) * 8 + (d3 - 48)) % 256] ∧
    value_str_unescape [92, d1, d2] quote = [92, d1, d2] := by
  have hd1 : isDigitB d1 = true := by simp only [isDigitB]; simp; omega
  have hd2 : isDigitB d2 = true := by simp only [isDigitB]; simp; omega
  have hd3 : isDigitB d3 = true := by simp only [isDigitB]; simp; omega
  have ho1 : isOctB d1 = true := by simp only [isOctB]; simp; omega
  have ho2 : isOctB d2 = true := by simp only [isOctB]; simp; omega
  have ho3 : isOctB d3 = true := by simp only [isOctB]; simp; omega
  have hx : ¬ (d1 = 120 ∧ (memchrHex (tolowerB d2)).isSome = true ∧
      (memchrHex (tolowerB d3)).isSome = true) := by
    intro hcon
    omega
  constructor
  · rw [value_str_unescape, if_neg hq0, if_neg hq1]
    show unescStep quote (3 + 1) [92, d1, d2, d3] = _
    rw [unescStep]
    rw [if_pos rfl]
    rw [if_neg (by omega : ¬ (d1 = 114)), if_neg (by omega : ¬ (d1 = 110)),
      if_neg (by omega : ¬ (d1 = 116)), if_neg (by omega : ¬ (d1 = 92)),
      if_neg (Ne.symm hqd)]
    simp only [List.length_cons, List.length_nil]
    rw [if_neg (by omega)]
    simp only [if_neg hx, List.getD_cons_succ, List.getD_cons_zero]
    rw [if_pos ⟨hd1, hd2, hd3, ho1⟩, if_pos ⟨hd1, hd2, hd3, ho1⟩]
    simp only [Nat.zero_add, List.drop_succ_cons, List.drop_nil]
    simp only [unescStep]
    unfold scan3o
    rw [if_pos ho2, if_pos ho3]
    congr 1
    omega
  · rw [value_str_unescape, if_neg hq0, if_neg hq1]
    show unescStep quote (2 + 1) [92, d1, d2] = _
    rw [unescStep]
    rw [if_pos rfl]
    rw [if_neg (by omega : ¬ (d1 = 114)), if_neg (by omega : ¬ (d1 = 110)),
      if_neg (by omega : ¬ (d1 = 116)), if_neg (by omega : ¬ (d1 = 92)),
      if_neg (Ne.symm hqd)]
    simp only [List.length_cons, List.length_nil]
    rw [if_pos (by omega)]

/-- C7 witness: "\077" unescapes to the single byte 63 while
"\07" stays verbatim, under double-quote mode. -/
theorem c7_exactly_three_octal_digits_witness :
    value_str_unescape [92, 48, 55, 55] 34 = [63] ∧
    value_str_unescape [92, 48, 55] 34 = [92, 48, 55] := by
  have h := c7_exactly_three_octal_digits 34 48 55 55 (by decide) (by decide) (by decide)
    (by decide) (by decide) (by decide)
  exact ⟨h.1.trans (by decide), h.2⟩

/-- C8: a type conversion DOES clear the provenance flag: casting a
tainted octets value to the string kind yields an untainted string,
because fr_value_box_cast memsets the destination and the
string-destination path never copies the source's taint. -/
theorem c8_cast_to_string_clears_taint :
    c8SrcBox.tainted = true ∧
    (fr_value_box_cast zeroBox .string_ none c8SrcBox).map FrValueBox.tainted =
      some false := by
  decide

/-- C9: a cast whose destination kind equals the source's kind is
exactly the deep copy: the very same result (success or failure), and
a successful copy agrees with the source in kind, tainted flag, enum
attachment and payload. -/
theorem c9_same_kind_cast_is_deep_copy (dstPrev : FrValueBox) (dstType : FrType)
    (dstEnumv : Option Nat) (src : FrValueBox) (h : dstType = src.typ) :
    fr_value_box_cast dstPrev dstType dstEnumv src = fr_value_box_copy dstPrev src ∧
    ∀ r, fr_value_box_copy dstPrev src = some r →
      r.typ = src.typ ∧ r.tainted = src.tainted ∧ r.enumv = src.enumv ∧ payloadEq r src := by
  subst h
  constructor
  · rw [fr_value_box_cast.eq_def]
    by_cases hinv : src.typ = .invalid
    · rw [if_pos hinv]
      rw [fr_value_box_copy.eq_def, if_pos hinv]
    · rw [if_neg hinv, if_neg hinv, if_pos rfl]
  · intro r hr
    rw [fr_value_box_copy.eq_def] at hr
    by_cases hinv : src.typ = .invalid
    · rw [if_pos hinv] at hr; exact absurd hr (by simp)
    · rw [if_neg hinv] at hr
      obtain ⟨styp, bits, ip, ifid, ether, buf, length, tvS, tvU, filt, ta, en⟩ := src
      simp only at hinv
      simp only [Option.some_inj] at hr
      cases styp <;> subst hr <;>
        simp_all [fr_value_box_copy_meta, payloadEq, bitsWidth, setLowBytes, List.take_take] <;>
        first
        | omega
        | (split <;> simp_all)

/-- C9 witness: casting a tainted, enum-attached string box to the
string kind returns exactly the deep copy, which agrees with the
source in kind, taint, enum attachment and payload. -/
theorem c9_same_kind_cast_is_deep_copy_witness :
    fr_value_box_cast zeroBox .string_ none c9Box = fr_value_box_copy zeroBox c9Box ∧
    (c9CopyRes.typ = c9Box.typ ∧ c9CopyRes.tainted = c9Box.tainted ∧
      c9CopyRes.enumv = c9Box.enumv ∧ payloadEq c9CopyRes c9Box) :=
  ⟨(c9_same_kind_cast_is_deep_copy zeroBox .string_ none c9Box rfl).1,
    (c9_same_kind_cast_is_deep_copy zeroBox .string_ none c9Box rfl).2 c9CopyRes (by decide)⟩

/-- C10: every successful cast to the IPv4-address kind produces
family AF_INET, prefix exactly 32 and scope id 0, and every
successful cast to the IPv6-address kind produces family AF_INET6
and prefix exactly 128, whatever the (well-formed) source kind. -/
theorem c10_cast_address_normalised (dstPrev : FrValueBox) (dstEnumv : Option Nat)
    (src : FrValueBox) (r4 r6 : FrValueBox) (hwf : addrWellFormed src) :
    (fr_value_box_cast dstPrev .ipv4addr dstEnumv src = some r4 →
      r4.ip.af = AF_INET ∧ r4.ip.plen = 32 ∧ r4.ip.scopeId = 0 ∧ r4.typ = .ipv4addr) ∧
    (fr_value_box_cast dstPrev .ipv6addr dstEnumv src = some r6 →
      r6.ip.af = AF_INET6 ∧ r6.ip.plen = 128 ∧ r6.typ = .ipv6addr) := by
  constructor
  · intro hc
    rw [fr_value_box_cast.eq_def, if_neg (by decide : ¬(FrType.ipv4addr = FrType.invalid))] at hc
    by_cases hinv : src.typ = .invalid
    · rw [if_pos hinv] at hc; exact absurd hc (by simp)
    · rw [if_neg hinv] at hc
      by_cases hsame : FrType.ipv4addr = src.typ
      · rw [if_pos hsame] at hc
        have hts : src.typ = .ipv4addr := hsame.symm
        rw [fr_value_box_copy.eq_def, if_neg hinv, hts] at hc
        simp only [Option.some_inj] at hc
        subst hc
        obtain ⟨ha, hp, hs⟩ := hwf.1 hts
        simp [fr_value_box_copy_meta, hts, ha, hp, hs]
      · rw [if_neg hsame] at hc
        exact castToIpv4addrFields hc
  · intro hc
    rw [fr_value_box_cast.eq_def, if_neg (by decide : ¬(FrType.ipv6addr = FrType.invalid))] at hc
    by_cases hinv : src.typ = .invalid
    · rw [if_pos hinv] at hc; exact absurd hc (by simp)
    · rw [if_neg hinv] at hc
      by_cases hsame : FrType.ipv6addr = src.typ
      · rw [if_pos hsame] at hc
        have hts : src.typ = .ipv6addr := hsame.symm
        rw [fr_value_box_copy.eq_def, if_neg hinv, hts] at hc
        simp only [Option.some_inj] at hc
        subst hc
        obtain ⟨ha, hp⟩ := hwf.2 hts
        simp [fr_value_box_copy_meta, hts, ha, hp]
      · rw [if_neg hsame] at hc
        exact castToIpv6addrFields hc

/-- C10 witness: casting the prefix 10.0.0.1/32 to the IPv4-address
kind and to the IPv6-address kind both succeed, with the normalised
family/prefix/scope fields. -/
theorem c10_cast_address_normalised_witness :
    (c10R4Box.ip.af = AF_INET ∧ c10R4Box.ip.plen = 32 ∧ c10R4Box.ip.scopeId = 0 ∧
      c10R4Box.typ = .ipv4addr) ∧
    (c10R6Box.ip.af = AF_INET6 ∧ c10R6Box.ip.plen = 128 ∧ c10R6Box.typ = .ipv6addr) :=
  ⟨(c10_cast_address_normalised zeroBox none c10SrcBox c10R4Box c10R6Box
      ⟨fun h => absurd h (by decide), fun h => absurd h (by decide)⟩).1 (by decide),
   (c10_cast_address_normalised zeroBox none c10SrcBox c10R4Box c10R6Box
      ⟨fun h => absurd h (by decide), fun h => absurd h (by decide)⟩).2 (by decide)⟩

end FrValue
